import Mathlib

/-!
Shallow embedding of the lightmux HTTP routing/middleware library
(github.com/ayayaakasvin/lightmux) and verification of its specification.

The repository ships several revisions side by side.  The mutually
consistent current revision is: lightmux.go (struct with routeMap
map[string]*Route, ApplyRoutes with allowedMethodsJoin), the untitled
route file (Route with Methods map[string]http.Handler, Handle wrapping
middlewares at bind time, NewRoute storing into routeMap), v2/middleware.go
(chainMiddlewares, ApplyGlobalMiddlewares), and the untitled helpers file
(isValidMethod, allowedMethodsJoin, RouteGroup with ContinueGroup), plus
the context-based Run of the untitled lifecycle file.  The legacy revision
(route.go with routeStack and lazy wrapping; signal-based Run with
log.Fatalf in the serve goroutine) is embedded separately where a claim
cites it.

Handlers are modelled as state transformers over a response-writer state
that follows net/http semantics: WriteHeader snapshots the header map at
the moment the status is written; later Header().Set calls mutate only the
in-memory map and have no effect on the sent response.  The state also
carries an order-recording trace, the instrument the spec itself proposes
for observing middleware execution order; library code never touches it.
-/

/-- An incoming HTTP request: method token and URL path.  This models the
fields of *http.Request that lightmux reads (r.Method, r.URL.Path). -/
structure Request where
  method : String
  urlPath : String
deriving DecidableEq, Repr

/-- Response-writer state, modelling net/http's ResponseWriter contract.
headers is the live header map returned by Header(); status and
sentHeaders are what was actually put on the wire by WriteHeader (the
header map is snapshotted at that moment: per the net/http documentation,
changing the header map after WriteHeader has no effect); body is the
accumulated written bytes; trace is a verification-only order-recording
side channel. -/
structure RespState where
  headers : List (String × String)
  status : Option Nat
  sentHeaders : Option (List (String × String))
  body : String
  trace : List String
deriving DecidableEq, Repr

/-- The zero response-writer state: nothing written yet. -/
def RespState.init : RespState :=
  { headers := [], status := none, sentHeaders := none, body := "", trace := [] }

/-- Set a key in an association-list map, replacing an existing binding
(the semantics of http.Header.Set for our purposes). -/
def assocSet (l : List (String × String)) (k v : String) : List (String × String) :=
  match l with
  | [] => [(k, v)]
  | (k0, v0) :: rest => if k0 = k then (k, v) :: rest else (k0, v0) :: assocSet rest k v

/-- First-match lookup in an association-list map (the read side of a Go
map). -/
def assocGet {α β : Type} [DecidableEq α] (l : List (α × β)) (k : α) : Option β :=
  match l with
  | [] => none
  | (k0, v0) :: rest => if k0 = k then some v0 else assocGet rest k

/-- w.WriteHeader(code): records the status and snapshots the current
header map; a second call is superfluous and ignored. -/
def RespState.writeHeader (st : RespState) (code : Nat) : RespState :=
  if st.status.isSome then st
  else { st with status := some code, sentHeaders := some st.headers }

/-- w.Header().Set(k, v): mutates the in-memory header map only.  If the
status has already been written this has no effect on the response. -/
def RespState.headerSet (st : RespState) (k v : String) : RespState :=
  { st with headers := assocSet st.headers k v }

/-- w.Write(s): an implicit WriteHeader(200) if none was written yet, then
append the bytes to the body. -/
def RespState.write (st : RespState) (s : String) : RespState :=
  let st1 := st.writeHeader 200
  { st1 with body := st1.body ++ s }

/-- Verification-only: record an event on the order-recording trace. -/
def RespState.push (st : RespState) (ev : String) : RespState :=
  { st with trace := st.trace ++ [ev] }

/-- http.HandlerFunc, modelled as a response-state transformer. -/
def HandlerFunc : Type := Request → RespState → RespState

/-- type Middleware func(http.HandlerFunc) http.HandlerFunc
(route-level and, in the current v2 revision, global middleware share this
shape). -/
def Middleware : Type := HandlerFunc → HandlerFunc

/-- chainMiddlewares (v2/middleware.go lines 18-23):
for i := len(middlewares) - 1; i >= 0; i-- { handler = middlewares[i](handler) }
The downward index loop visits the list in reverse order, threading the
handler through; it is rendered as a left fold over the reversed list. -/
def chainMiddlewares (handler : HandlerFunc) (middlewares : List Middleware) : HandlerFunc :=
  middlewares.reverse.foldl (fun h m => m h) handler

/-- Route (untitled route file, current revision): path, method-to-handler
map (http.Handler values: the handlers stored are already composed), and
the route's middleware list.  Go maps are modelled as association lists
with first-match lookup; insertion appends. -/
structure Route where
  Path : String
  Methods : List (String × HandlerFunc)
  Middlewares : List Middleware

/-- (r *Route).wrapMiddlewares (route file lines 57-62): identical
downward loop over r.Middlewares. -/
def Route.wrapMiddlewares (r : Route) (handler : HandlerFunc) : HandlerFunc :=
  r.Middlewares.reverse.foldl (fun h m => m h) handler

/-- The spec-side composition (spec section 4.1): the nested wrapping
m0 (m1 (... (mk h) ...)), written as a structural recursion so that the
head of the list is the outermost wrapper.  This definition follows the
spec's words and is compared against the source-derived loops above. -/
def specNestedCompose (middlewares : List Middleware) (h : HandlerFunc) : HandlerFunc :=
  match middlewares with
  | [] => h
  | m :: rest => m (specNestedCompose rest h)

/-- isValidMethod (helpers file lines 10-18): the nine standard HTTP verbs
(the values of http.MethodGet .. http.MethodTrace). -/
def isValidMethod (method : String) : Bool :=
  method = "GET" || method = "POST" || method = "PUT" || method = "DELETE" ||
  method = "PATCH" || method = "HEAD" || method = "OPTIONS" || method = "CONNECT" ||
  method = "TRACE"

/-- One hex digit as produced by encoding/json (lower case). -/
def jsonHexDigit (n : Nat) : Char :=
  if n < 10 then Char.ofNat (48 + n) else Char.ofNat (87 + n)

/-- Escaping of one character as performed by encoding/json with its
default HTML escaping: backslash, quote, the three HTML-significant
characters, and control characters. -/
def jsonEscapeChar (c : Char) : String :=
  if c = '"' then "\\\"" else
  if c = '\\' then "\\\\" else
  if c = '\n' then "\\n" else
  if c = '\r' then "\\r" else
  if c = '\t' then "\\t" else
  if c = '<' ∨ c = '>' ∨ c = '&' ∨ c.toNat < 32 then
    "\\u00" ++ String.singleton (jsonHexDigit (c.toNat / 16)) ++
      String.singleton (jsonHexDigit (c.toNat % 16))
  else String.singleton c

/-- encoding/json escaping of a whole string. -/
def jsonEscape (s : String) : String :=
  String.join (s.toList.map jsonEscapeChar)

/-- json.NewEncoder(w).Encode(map[string]string\x7b"error": msg\x7d): the
serialized single-key object followed by the newline Encode appends. -/
def goEncodeErrorObj (msg : String) : String :=
  "\x7b\"error\":\"" ++ jsonEscape msg ++ "\"\x7d\n"

/-- allowedMethodsJoin (helpers file lines 27-34): joins the keys of the
method map with ", ".  Go map iteration order is unspecified (the spec
gives the list set semantics); the association-list model yields insertion
order, one admissible order. -/
def allowedMethodsJoin (mp : List (String × HandlerFunc)) : String :=
  String.intercalate ", " (mp.map Prod.fst)

/-- LightMux (lightmux.go lines 19-28, current revision): the server's
installed handler, the underlying ServeMux handler table, the route map
and the global middleware stack. -/
structure LightMux where
  serverHandler : Option HandlerFunc
  muxTable : List (String × HandlerFunc)
  routeMap : List (String × Route)
  globalMiddlewareStack : List Middleware

/-- NewLightMux (lightmux.go lines 31-37): empty mux, empty route map. -/
def NewLightMux : LightMux :=
  { serverHandler := none, muxTable := [], routeMap := [], globalMiddlewareStack := [] }

/-- (l *LightMux).NewRoute (route file lines 19-34): panic on a duplicate
path - rendered as an Except.error paired with the unmodified state, since
the panic fires before any mutation - otherwise create the Route seeded
with the given middlewares, store it in the route map and return it. -/
def LightMux.NewRoute (l : LightMux) (path : String) (middlewares : List Middleware) :
    LightMux × Except String Route :=
  if (assocGet l.routeMap path).isSome then
    (l, Except.error ("route with path " ++ path ++ " already exists"))
  else
    let r : Route := { Path := path, Methods := [], Middlewares := middlewares }
    ({ l with routeMap := l.routeMap ++ [(path, r)] }, Except.ok r)

/-- (r *Route).Use (route file lines 37-39): append to the route's
middleware list. -/
def Route.Use (r : Route) (middlewares : List Middleware) : Route :=
  { r with Middlewares := r.Middlewares ++ middlewares }

/-- (r *Route).Handle (route file lines 43-54, current revision): reject
an invalid method token, reject a method already bound, otherwise store
the handler wrapped with the route's middleware chain as it is at this
moment (snapshot at bind).  Panics are rendered as Except.error paired
with the unmodified route. -/
def Route.Handle (r : Route) (method : String) (handler : HandlerFunc) :
    Route × Except String Unit :=
  if isValidMethod method = false then
    (r, Except.error ("invalid HTTP method: " ++ method))
  else if (assocGet r.Methods method).isSome then
    (r, Except.error ("duplicate method for path: " ++ method ++ " " ++ r.Path))
  else
    ({ r with Methods := r.Methods ++ [(method, r.wrapMiddlewares handler)] }, Except.ok ())

/-- The dispatch closure ApplyRoutes installs for one route (lightmux.go
lines 51-62): serve the bound handler for the request method when there is
one; otherwise write status 405, then set Content-Type, then encode the
error object.  allowed is the joined method list computed before the
closure is built (line 49). -/
def routeDispatch (route : Route) (allowed : String) : HandlerFunc :=
  fun req st =>
    match assocGet route.Methods req.method with
    | some handler => handler req st
    | none =>
      let st1 := st.writeHeader 405
      let st2 := st1.headerSet "Content-Type" "application/json"
      st2.write (goEncodeErrorObj
        (req.method ++ " method is not allowed, allowed methods for " ++
          req.urlPath ++ ":[" ++ allowed ++ "]"))

/-- mux.HandleFunc(pattern, h): register the dispatch function at the
pattern.  ApplyRoutes only installs the route map's distinct paths, so
ServeMux's duplicate-pattern panic cannot fire along the modelled flows. -/
def muxHandleFunc (tbl : List (String × HandlerFunc)) (pattern : String)
    (h : HandlerFunc) : List (String × HandlerFunc) :=
  tbl ++ [(pattern, h)]

/-- Go's default NotFound handler, reached for a path with no registered
pattern. -/
def notFoundHandler : HandlerFunc :=
  fun _ st =>
    ((((st.headerSet "Content-Type" "text/plain; charset=utf-8").headerSet
        "X-Content-Type-Options" "nosniff").writeHeader 404).write
      "404 page not found\n")

/-- l.mux.ServeHTTP: exact-path lookup in the handler table (path-pattern
matching beyond exact paths is a spec non-goal), falling back to the
NotFound handler. -/
def muxServe (tbl : List (String × HandlerFunc)) : HandlerFunc :=
  fun req st =>
    match assocGet tbl req.urlPath with
    | some h => h req st
    | none => notFoundHandler req st

/-- (l *LightMux).ApplyRoutes (lightmux.go lines 49-67): for every stored
route, install its dispatch closure at the route's path. -/
def LightMux.ApplyRoutes (l : LightMux) : LightMux :=
  { l with
    muxTable := l.routeMap.foldl
      (fun tbl pr =>
        muxHandleFunc tbl pr.2.Path
          (routeDispatch pr.2 (allowedMethodsJoin pr.2.Methods)))
      l.muxTable }

/-- (l *LightMux).Use (v2/middleware.go lines 12-16): append to the global
middleware stack when the argument list is non-empty. -/
def LightMux.Use (l : LightMux) (middlewares : List Middleware) : LightMux :=
  if middlewares.length ≠ 0 then
    { l with globalMiddlewareStack := l.globalMiddlewareStack ++ middlewares }
  else l

/-- (l *LightMux).ApplyGlobalMiddlewares (v2/middleware.go lines 28-38):
wrap the mux dispatch (the base closure) with the global middleware chain
when the stack is non-empty, and install the result as the server's
handler. -/
def LightMux.ApplyGlobalMiddlewares (l : LightMux) : LightMux :=
  let base : HandlerFunc := fun req st => muxServe l.muxTable req st
  let finalHandler :=
    if l.globalMiddlewareStack.length > 0 then
      chainMiddlewares base l.globalMiddlewareStack
    else base
  { l with serverHandler := some finalHandler }

/-- The finalization prefix shared by every Run variant (lifecycle file
lines 84-85): l.ApplyRoutes(); l.ApplyGlobalMiddlewares() - routes are
installed first, then the global stack wraps the finalized dispatch. -/
def LightMux.runFinalize (l : LightMux) : LightMux :=
  l.ApplyRoutes.ApplyGlobalMiddlewares

/-- Go's routeMap stores *Route: a mutation of a Route through its pointer
(Handle, Use) is visible through the map.  The pure model makes that
pointer write-back explicit by storing the updated Route value at its
path. -/
def LightMux.setRoute (l : LightMux) (path : String) (r : Route) : LightMux :=
  { l with routeMap := l.routeMap.map (fun pr => if pr.1 = path then (path, r) else pr) }

/-- Number of entries a route table holds for one path. -/
def countKey (l : List (String × Route)) (k : String) : Nat :=
  (l.filter (fun pr => pr.1 = k)).length

/-- An order-recording middleware with label ev: records its label on the
way in, then calls the next handler - the observation instrument the
spec's testable properties prescribe. -/
def traceMw (ev : String) : Middleware :=
  fun next => fun req st => next req (st.push ev)

/-- An order-recording terminal handler: records "H". -/
def traceHandler : HandlerFunc :=
  fun _ st => st.push "H"

/-- The README scenario handler: writes "Hello, world!" (implicit 200). -/
def helloHandler : HandlerFunc :=
  fun _ st => st.write "Hello, world!"

/-- A freshly created /hello route, no methods bound yet. -/
def blankRoute : Route :=
  { Path := "/hello", Methods := [], Middlewares := [] }

/-- The /hello route with only GET bound, built through Route.Handle
exactly as the README scenario registers it. -/
def helloRoute : Route :=
  (blankRoute.Handle "GET" helloHandler).1

/-- The dispatch closure ApplyRoutes installs for helloRoute. -/
def helloDispatch : HandlerFunc :=
  routeDispatch helloRoute (allowedMethodsJoin helloRoute.Methods)

/-- A route record used by concrete witnesses. -/
def sampleRoute0 : Route :=
  { Path := "/a", Methods := [], Middlewares := [] }

/-- A mux that already holds a route at /a, used by concrete witnesses. -/
def sampleMuxDup : LightMux :=
  { serverHandler := none, muxTable := [], routeMap := [("/a", sampleRoute0)],
    globalMiddlewareStack := [] }

/-- End-to-end ordering scenario: global middlewares labelled gs, one
route at p with route middlewares labelled rs and the tracing terminal
handler bound at m, finalized by the Run prelude; returns the recorded
execution order of a request for m at p (none if any registration step
failed or no handler was installed). -/
def scenarioTrace (gs rs : List String) (p m : String) : Option (List String) :=
  let l0 := NewLightMux.Use (gs.map traceMw)
  match l0.NewRoute p (rs.map traceMw) with
  | (l1, Except.ok r) =>
    match r.Handle m traceHandler with
    | (r1, Except.ok _) =>
      let l2 := (l1.setRoute p r1).runFinalize
      some (((l2.serverHandler.getD notFoundHandler) { method := m, urlPath := p }
        RespState.init).trace)
    | (_, Except.error _) => none
  | (_, Except.error _) => none

/-- RouteGroup (helpers file): a path prefix string (Go field named after
the notation keyword, rendered here as groupPrefix), the group middleware
list, and - in Go - the owning *LightMux; the owner is passed explicitly
where needed. -/
structure RouteGroup where
  groupPrefix : String
  middlewares : List Middleware

/-- (l *LightMux).NewGroup (helpers file lines 44-50): build a group from
prefix and middlewares (the receiver only seeds the mux back-pointer,
which the value model passes explicitly). -/
def LightMux.NewGroup (_l : LightMux) (pfx : String) (middlewares : List Middleware) :
    RouteGroup :=
  { groupPrefix := pfx, middlewares := middlewares }

/-- (g *RouteGroup).NewRoute (helpers file lines 53-57):
fullPath := g.prefix + path; allMiddleware := append(g.middlewares,
middlewares...); return g.mux.NewRoute(fullPath, allMiddleware...).
The owning LightMux g.mux is the explicit argument l. -/
def RouteGroup.NewRoute (g : RouteGroup) (l : LightMux) (path : String)
    (middlewares : List Middleware) : LightMux × Except String Route :=
  let fullPath := g.groupPrefix ++ path
  let allMiddleware := g.middlewares ++ middlewares
  l.NewRoute fullPath allMiddleware

/-- A concrete group used by witnesses. -/
def apiGroup : RouteGroup :=
  LightMux.NewGroup NewLightMux "/api" [traceMw "G"]

/-- The route value apiGroup.NewRoute produces on a fresh mux. -/
def apiRouteVal : Route :=
  { Path := "/api" ++ "/users", Methods := [],
    Middlewares := apiGroup.middlewares ++ [traceMw "M"] }

/-- Generic association-list update used by the slice heap. -/
def assocUpd {α β : Type} [DecidableEq α] (l : List (α × β)) (k : α) (v : β) :
    List (α × β) :=
  match l with
  | [] => [(k, v)]
  | (k0, v0) :: rest => if k0 = k then (k, v) :: rest else (k0, v0) :: assocUpd rest k v

/-- A Go slice header over the middleware heap: backing-array id, offset,
length and capacity.  RouteGroup middleware lists are Go slices, and the
copy-on-extend contract of ContinueGroup is about which backing array each
header points at. -/
structure GoSlice where
  arr : Nat
  off : Nat
  len : Nat
  cap : Nat
deriving DecidableEq, Repr

/-- The heap of middleware backing arrays; next is the next fresh id. -/
structure SliceHeap where
  arrays : List (Nat × List Middleware)
  next : Nat

/-- Contents of one backing array. -/
def SliceHeap.readArr (h : SliceHeap) (id : Nat) : List Middleware :=
  (assocGet h.arrays id).getD []

/-- Overwrite one backing array in place. -/
def SliceHeap.writeArr (h : SliceHeap) (id : Nat) (v : List Middleware) : SliceHeap :=
  { h with arrays := assocUpd h.arrays id v }

/-- Allocate a fresh backing array. -/
def SliceHeap.alloc (h : SliceHeap) (v : List Middleware) : SliceHeap × Nat :=
  ({ arrays := h.arrays ++ [(h.next, v)], next := h.next + 1 }, h.next)

/-- The element sequence a slice header denotes. -/
def SliceHeap.readSlice (h : SliceHeap) (s : GoSlice) : List Middleware :=
  ((h.readArr s.arr).drop s.off).take s.len

/-- A well-formed slice: allocated id, len within cap, cap within the
backing array. -/
def SliceHeap.wfSlice (h : SliceHeap) (s : GoSlice) : Prop :=
  s.arr < h.next ∧ s.len ≤ s.cap ∧ s.off + s.cap ≤ (h.readArr s.arr).length

/-- The append builtin: write into the spare capacity of the existing
backing array when it suffices, otherwise allocate a fresh array holding
the old elements followed by the new ones.  (Go's reallocation growth
factor is a runtime policy the language does not specify; the fresh
capacity is taken to be exactly the new length, and none of the
properties proved below depend on that choice.) -/
def goAppend (h : SliceHeap) (s : GoSlice) (xs : List Middleware) :
    SliceHeap × GoSlice :=
  if s.len + xs.length ≤ s.cap then
    let a := h.readArr s.arr
    let a2 := a.take (s.off + s.len) ++ xs ++ a.drop (s.off + s.len + xs.length)
    (h.writeArr s.arr a2, { s with len := s.len + xs.length })
  else
    let al := h.alloc (h.readSlice s ++ xs)
    (al.1, { arr := al.2, off := 0, len := s.len + xs.length, cap := s.len + xs.length })

/-- RouteGroup as laid out in Go, with the middleware field as a slice
header into the heap (the Go field named prefix is rendered groupPfx). -/
structure HRouteGroup where
  groupPfx : String
  middlewares : GoSlice
deriving DecidableEq, Repr

/-- (g *RouteGroup).ContinueGroup (helpers file lines 60-75):
newPrefix := g.prefix + path;
newMiddlewares := make([]Middleware, len(g.middlewares));
copy(newMiddlewares, g.middlewares);
newMiddlewares = append(newMiddlewares, middlewares...);
return a fresh group.  make+copy allocates a fresh backing array with
capacity equal to the length, so the subsequent append cannot touch the
receiver's backing array. -/
def ContinueGroup (h : SliceHeap) (g : HRouteGroup) (path : String)
    (mws : List Middleware) : SliceHeap × HRouteGroup :=
  let newPfx := g.groupPfx ++ path
  let al := h.alloc (h.readSlice g.middlewares)
  let copied : GoSlice :=
    { arr := al.2, off := 0, len := g.middlewares.len, cap := g.middlewares.len }
  let ap := goAppend al.1 copied mws
  (ap.1, { groupPfx := newPfx, middlewares := ap.2 })

/-- The middleware-slice effect of (g *RouteGroup).NewRoute (helpers file
line 55): allMiddleware := append(g.middlewares, middlewares...).  The
route-map half of that operation is the value-level LightMux.NewRoute and
never touches the middleware heap. -/
def groupNewRouteAppend (h : SliceHeap) (g : HRouteGroup) (mws : List Middleware) :
    SliceHeap × GoSlice :=
  goAppend h g.middlewares mws

/-- An operation performed on a (descendant of the) child group: extending
it again, or creating a route from it. -/
inductive ChildOp where
  | cont (path : String) (mws : List Middleware)
  | newRoute (mws : List Middleware)

/-- Run a sequence of operations along the child chain: cont continues
work on the newly produced descendant group. -/
def applyChildOps (h : SliceHeap) (g : HRouteGroup) : List ChildOp → SliceHeap × HRouteGroup
  | [] => (h, g)
  | ChildOp.cont p mws :: rest =>
    let hg := ContinueGroup h g p mws
    applyChildOps hg.1 hg.2 rest
  | ChildOp.newRoute mws :: rest =>
    let hs := groupNewRouteAppend h g mws
    applyChildOps hs.1 g rest

/-- Heap h2 agrees with h on every array id below B and has allocated at
least up to B. -/
def HeapExtends (h h2 : SliceHeap) (B : Nat) : Prop :=
  B ≤ h2.next ∧ ∀ id, id < B → h2.readArr id = h.readArr id

/-- The listener result: a clean close (http.ErrServerClosed) or any
other failure. -/
inductive GoError where
  | serverClosed
  | other (msg : String)
deriving DecidableEq, Repr

/-- What a serve goroutine does with the listener's result. -/
inductive GoAction where
  | sendErr (e : GoError)
  | ret
  | fatalExit
  | exitZero
deriving DecidableEq, Repr

/-- The serve goroutine of the context-based Run (lifecycle file lines
89-94): a listener error other than a clean close is sent on the error
channel; otherwise the goroutine just returns. -/
def runGoroutine (listenResult : Option GoError) : GoAction :=
  match listenResult with
  | some e => if e = GoError.serverClosed then GoAction.ret else GoAction.sendErr e
  | none => GoAction.ret

/-- The serve goroutine of the legacy signal-based Run (lightmux.go lines
93-101): a listener error other than a clean close hits log.Fatalf, which
terminates the process; a clean close hits os.Exit(0). -/
def legacyRunGoroutine (listenResult : Option GoError) : GoAction :=
  match listenResult with
  | some e => if e = GoError.serverClosed then GoAction.exitZero else GoAction.fatalExit
  | none => GoAction.ret

/-- The observable outcome of a run operation. -/
inductive RunOutcome where
  | returns (e : Option GoError)
  | processExit (clean : Bool)
  | blocked
deriving DecidableEq, Repr

/-- The select of the context-based Run (lifecycle file lines 96-112).
ctxDone says the cancellation arrived before any goroutine error was
delivered (the race is first-arrival-wins); in the cancellation branch
Shutdown's result is returned, in the other branch the received listener
error is returned. -/
def runSelect (listenResult : Option GoError) (ctxDone : Bool)
    (shutdownResult : Option GoError) : RunOutcome :=
  if ctxDone then
    match shutdownResult with
    | some e => RunOutcome.returns (some e)
    | none => RunOutcome.returns none
  else
    match runGoroutine listenResult with
    | GoAction.sendErr e => RunOutcome.returns (some e)
    | _ => RunOutcome.blocked

/-- The legacy signal-based Run (lightmux.go lines 86-115): the goroutine
terminates the process on any listener result other than a nil error;
otherwise the main flow blocks on the signal channel and, once a signal
arrives, shuts down (log.Fatalf on a shutdown error other than a clean
close) and returns nil. -/
def legacyRun (listenResult : Option GoError) (signalReceived : Bool)
    (shutdownResult : Option GoError) : RunOutcome :=
  match legacyRunGoroutine listenResult with
  | GoAction.fatalExit => RunOutcome.processExit false
  | GoAction.exitZero => RunOutcome.processExit true
  | _ =>
    if signalReceived then
      match shutdownResult with
      | some e =>
        if e = GoError.serverClosed then RunOutcome.returns none
        else RunOutcome.processExit false
      | none => RunOutcome.returns none
    else RunOutcome.blocked


/-- A heap is well formed when every allocated id is below next. -/
def SliceHeap.wf (h : SliceHeap) : Prop :=
  ∀ pr ∈ h.arrays, pr.1 < h.next

/-- A concrete one-array heap used by witnesses. -/
def sampleHeap : SliceHeap :=
  { arrays := [(0, [traceMw "A"])], next := 1 }

/-- A concrete parent group over sampleHeap used by witnesses. -/
def sampleParent : HRouteGroup :=
  { groupPfx := "/api", middlewares := { arr := 0, off := 0, len := 1, cap := 1 } }

/-- A concrete child-operation sequence used by witnesses. -/
def sampleOps : List ChildOp :=
  [ChildOp.cont "/x" [traceMw "C"], ChildOp.newRoute [traceMw "D"]]

/-! ## Helper lemmas -/

theorem assocGet_append_of_none {α β : Type} [DecidableEq α]
    (l1 l2 : List (α × β)) (k : α) (h : assocGet l1 k = none) :
    assocGet (l1 ++ l2) k = assocGet l2 k := by
  induction l1 with
  | nil => rfl
  | cons p rest ih =>
    obtain ⟨k0, v0⟩ := p
    by_cases hk : k0 = k
    · simp [assocGet, hk] at h
    · simp only [List.cons_append, assocGet, if_neg hk] at h ⊢
      exact ih h

theorem assocGet_singleton_self {β : Type} (k : String) (v : β) :
    assocGet [(k, v)] k = some v := by
  simp [assocGet]

theorem countKey_eq_zero_of_get_none (l : List (String × Route)) (k : String)
    (h : assocGet l k = none) : countKey l k = 0 := by
  induction l with
  | nil => rfl
  | cons p rest ih =>
    obtain ⟨k0, v0⟩ := p
    by_cases hk : k0 = k
    · simp [assocGet, hk] at h
    · simp only [assocGet, if_neg hk] at h
      have h2 := ih h
      simp only [countKey, List.filter_cons] at h2 ⊢
      simp [hk, h2]

theorem countKey_pos_of_get_some (l : List (String × Route)) (k : String) (r : Route)
    (h : assocGet l k = some r) : 1 ≤ countKey l k := by
  induction l with
  | nil => simp [assocGet] at h
  | cons p rest ih =>
    obtain ⟨k0, v0⟩ := p
    by_cases hk : k0 = k
    · simp [countKey, List.filter_cons, hk]
    · simp only [assocGet, if_neg hk] at h
      have h2 := ih h
      simp only [countKey, List.filter_cons] at h2 ⊢
      simp [hk]
      omega

theorem countKey_append_same (l : List (String × Route)) (k : String) (r : Route) :
    countKey (l ++ [(k, r)]) k = countKey l k + 1 := by
  simp [countKey, List.filter_append]

/-! ## C1: middleware chain composition order -/

theorem specNestedCompose_eq_foldr (ms : List Middleware) (h : HandlerFunc) :
    specNestedCompose ms h = ms.foldr (fun m acc => m acc) h := by
  induction ms with
  | nil => rfl
  | cons m rest ih => simp [specNestedCompose, ih]

theorem chainMiddlewares_eq_nested (h : HandlerFunc) (ms : List Middleware) :
    chainMiddlewares h ms = specNestedCompose ms h := by
  rw [specNestedCompose_eq_foldr, chainMiddlewares, List.foldl_reverse]

theorem wrapMiddlewares_eq_nested (r : Route) (h : HandlerFunc) :
    r.wrapMiddlewares h = specNestedCompose r.Middlewares h := by
  rw [specNestedCompose_eq_foldr, Route.wrapMiddlewares, List.foldl_reverse]

/-- C1: For every ordered middleware sequence [m0, m1, ..., mk] and
terminal handler h, both chainMiddlewares (global stack) and
Route.wrapMiddlewares (route stack) return the single handler
m0 (m1 (... (mk h) ...)): the loops iterate the sequence from last to
first so the first middleware ends up outermost and executes first, with
no middleware dropped or reordered. -/
theorem chain_and_wrap_are_nested_composition :
    (∀ (h : HandlerFunc) (ms : List Middleware),
        chainMiddlewares h ms = specNestedCompose ms h) ∧
    (∀ (r : Route) (h : HandlerFunc),
        r.wrapMiddlewares h = specNestedCompose r.Middlewares h) :=
  ⟨chainMiddlewares_eq_nested, wrapMiddlewares_eq_nested⟩

/-! ## C4: duplicate-path rejection in NewRoute -/

/-- C4: Creating a route on a path that already has one fails with the
registration-time error and leaves the table untouched: afterwards the
table still holds exactly one Route for that path, with its original
bindings.  On a fresh path the route is created, stored and returned,
seeded with exactly the given middleware and no methods. -/
theorem newRoute_duplicate_rejected_fresh_created
    (l : LightMux) (path : String) (ms : List Middleware) :
    (∀ r0 : Route, assocGet l.routeMap path = some r0 →
      (l.NewRoute path ms).1 = l ∧
      (l.NewRoute path ms).2 =
        Except.error ("route with path " ++ path ++ " already exists") ∧
      assocGet (l.NewRoute path ms).1.routeMap path = some r0 ∧
      (countKey l.routeMap path ≤ 1 →
        countKey (l.NewRoute path ms).1.routeMap path = 1)) ∧
    (assocGet l.routeMap path = none →
      ∃ r : Route, (l.NewRoute path ms).2 = Except.ok r ∧
        r.Path = path ∧ r.Methods = [] ∧ r.Middlewares = ms ∧
        (l.NewRoute path ms).1.routeMap = l.routeMap ++ [(path, r)] ∧
        countKey (l.NewRoute path ms).1.routeMap path = 1) := by
  constructor
  · intro r0 h0
    have hres : l.NewRoute path ms =
        (l, Except.error ("route with path " ++ path ++ " already exists")) := by
      simp [LightMux.NewRoute, h0]
    refine ⟨by rw [hres], by rw [hres], by rw [hres]; exact h0, ?_⟩
    intro hle
    have hpos := countKey_pos_of_get_some l.routeMap path r0 h0
    rw [hres]
    show countKey l.routeMap path = 1
    omega
  · intro h0
    have hres : l.NewRoute path ms =
        ({ l with routeMap :=
            l.routeMap ++ [(path, { Path := path, Methods := [], Middlewares := ms })] },
          Except.ok { Path := path, Methods := [], Middlewares := ms }) := by
      simp [LightMux.NewRoute, h0]
    refine ⟨{ Path := path, Methods := [], Middlewares := ms },
      by rw [hres], rfl, rfl, rfl, by rw [hres], ?_⟩
    rw [hres]
    simp only
    rw [countKey_append_same, countKey_eq_zero_of_get_none l.routeMap path h0]

theorem newRoute_duplicate_rejected_fresh_created_witness :
    ((sampleMuxDup.NewRoute "/a" []).1 = sampleMuxDup ∧
     (sampleMuxDup.NewRoute "/a" []).2 =
       Except.error ("route with path " ++ "/a" ++ " already exists") ∧
     assocGet (sampleMuxDup.NewRoute "/a" []).1.routeMap "/a" = some sampleRoute0 ∧
     (countKey sampleMuxDup.routeMap "/a" ≤ 1 →
       countKey (sampleMuxDup.NewRoute "/a" []).1.routeMap "/a" = 1)) ∧
    (∃ r : Route, (NewLightMux.NewRoute "/b" []).2 = Except.ok r ∧
      r.Path = "/b" ∧ r.Methods = [] ∧ r.Middlewares = [] ∧
      (NewLightMux.NewRoute "/b" []).1.routeMap = NewLightMux.routeMap ++ [("/b", r)] ∧
      countKey (NewLightMux.NewRoute "/b" []).1.routeMap "/b" = 1) :=
  ⟨(newRoute_duplicate_rejected_fresh_created sampleMuxDup "/a" []).1 sampleRoute0 rfl,
   (newRoute_duplicate_rejected_fresh_created NewLightMux "/b" []).2 rfl⟩

/-! ## C5: method validation and duplicate-method rejection in Handle -/

/-- C5: Handle fails with a registration-time error when the method token
is not one of the nine standard verbs, and fails with a registration-time
error when the method is already bound; in both cases the Route is left
unchanged, and in the duplicate case the first binding remains in
effect. -/
theorem handle_invalid_and_duplicate_rejected
    (r : Route) (method : String) (h : HandlerFunc) :
    (isValidMethod method = false →
      (r.Handle method h).1 = r ∧
      (r.Handle method h).2 = Except.error ("invalid HTTP method: " ++ method)) ∧
    (∀ h0 : HandlerFunc, isValidMethod method = true →
      assocGet r.Methods method = some h0 →
      (r.Handle method h).1 = r ∧
      (r.Handle method h).2 =
        Except.error ("duplicate method for path: " ++ method ++ " " ++ r.Path) ∧
      assocGet (r.Handle method h).1.Methods method = some h0) := by
  constructor
  · intro hv
    constructor
    · simp [Route.Handle, hv]
    · simp [Route.Handle, hv]
  · intro h0 hv hdup
    have hres : r.Handle method h =
        (r, Except.error ("duplicate method for path: " ++ method ++ " " ++ r.Path)) := by
      simp [Route.Handle, hv, hdup]
    exact ⟨by rw [hres], by rw [hres], by rw [hres]; exact hdup⟩

theorem handle_invalid_and_duplicate_rejected_witness :
    ((helloRoute.Handle "FOO" helloHandler).1 = helloRoute ∧
     (helloRoute.Handle "FOO" helloHandler).2 =
       Except.error ("invalid HTTP method: " ++ "FOO")) ∧
    ((helloRoute.Handle "GET" helloHandler).1 = helloRoute ∧
     (helloRoute.Handle "GET" helloHandler).2 =
       Except.error ("duplicate method for path: " ++ "GET" ++ " " ++ helloRoute.Path) ∧
     assocGet (helloRoute.Handle "GET" helloHandler).1.Methods "GET" =
       some helloHandler) :=
  ⟨(handle_invalid_and_duplicate_rejected helloRoute "FOO" helloHandler).1 (by decide),
   (handle_invalid_and_duplicate_rejected helloRoute "GET" helloHandler).2
     helloHandler (by decide) rfl⟩

/-! ## C6: snapshot-at-bind composition -/

/-- C6: Once Handle has composed a handler for a method with the route's
middleware chain as it was at that moment, a later Route.Use does not
change it: the method map is untouched by Use, and the handler served for
the method is exactly the bind-time wrap of the route's middleware list -
independent of the middlewares appended afterwards. -/
theorem use_after_handle_is_snapshot (r : Route) (method : String) (h : HandlerFunc)
    (ms : List Middleware) (hok : (r.Handle method h).2 = Except.ok ()) :
    ((r.Handle method h).1.Use ms).Methods = (r.Handle method h).1.Methods ∧
    assocGet ((r.Handle method h).1.Use ms).Methods method =
      some (r.wrapMiddlewares h) := by
  have hfst : ∀ r2 : Route, (r2.Use ms).Methods = r2.Methods := by
    intro r2
    rfl
  by_cases hv : isValidMethod method = false
  · exfalso
    simp [Route.Handle, hv] at hok
  · by_cases hdup : (assocGet r.Methods method).isSome
    · exfalso
      rw [Route.Handle, if_neg hv, if_pos hdup] at hok
      exact Except.noConfusion hok
    · have hnone : assocGet r.Methods method = none :=
        Option.not_isSome_iff_eq_none.mp hdup
      have hres : (r.Handle method h).1 =
          { r with Methods := r.Methods ++ [(method, r.wrapMiddlewares h)] } := by
        rw [Route.Handle, if_neg hv, if_neg hdup]
      refine ⟨hfst _, ?_⟩
      rw [hfst, hres]
      simp only
      rw [assocGet_append_of_none _ _ _ hnone, assocGet_singleton_self]

theorem use_after_handle_is_snapshot_witness :
    ((blankRoute.Handle "GET" traceHandler).1.Use [traceMw "X"]).Methods =
      (blankRoute.Handle "GET" traceHandler).1.Methods ∧
    assocGet ((blankRoute.Handle "GET" traceHandler).1.Use [traceMw "X"]).Methods "GET" =
      some (blankRoute.wrapMiddlewares traceHandler) :=
  use_after_handle_is_snapshot blankRoute "GET" traceHandler [traceMw "X"] rfl

/-! ## C7: group route creation delegates with concatenated path and
middleware -/

/-- C7: RouteGroup.NewRoute with path s and call-site middleware M
delegates to the table's route-creation operation with path equal to the
group prefix concatenated with s, and middleware list equal to the group
middleware followed by M; the Route so created carries exactly those
fields. -/
theorem group_newRoute_delegates (g : RouteGroup) (l : LightMux) (path : String)
    (ms : List Middleware) :
    g.NewRoute l path ms = l.NewRoute (g.groupPrefix ++ path) (g.middlewares ++ ms) ∧
    (∀ r : Route, (g.NewRoute l path ms).2 = Except.ok r →
      r.Path = g.groupPrefix ++ path ∧ r.Middlewares = g.middlewares ++ ms ∧
      r.Methods = []) := by
  refine ⟨rfl, ?_⟩
  intro r hr
  rw [RouteGroup.NewRoute] at hr
  by_cases hdup : (assocGet l.routeMap (g.groupPrefix ++ path)).isSome
  · exfalso
    rw [LightMux.NewRoute, if_pos hdup] at hr
    exact Except.noConfusion hr
  · rw [LightMux.NewRoute, if_neg hdup] at hr
    have hr2 := Except.ok.inj hr
    rw [← hr2]
    exact ⟨rfl, rfl, rfl⟩

theorem group_newRoute_delegates_witness :
    (apiGroup.NewRoute NewLightMux "/users" [traceMw "M"] =
      NewLightMux.NewRoute (apiGroup.groupPrefix ++ "/users")
        (apiGroup.middlewares ++ [traceMw "M"])) ∧
    (apiRouteVal.Path = apiGroup.groupPrefix ++ "/users" ∧
     apiRouteVal.Middlewares = apiGroup.middlewares ++ [traceMw "M"] ∧
     apiRouteVal.Methods = []) :=
  ⟨(group_newRoute_delegates apiGroup NewLightMux "/users" [traceMw "M"]).1,
   (group_newRoute_delegates apiGroup NewLightMux "/users" [traceMw "M"]).2
     apiRouteVal rfl⟩

/-! ## C10: the empty chain is the identity -/

/-- C10: Composing the empty middleware sequence is the identity: the
chain over [] returns the handler unchanged, and with no global middleware
registered, ApplyGlobalMiddlewares installs a server handler whose
behaviour on every request and every response state is exactly the mux
dispatch over the handler table. -/
theorem empty_chain_identity :
    (∀ h : HandlerFunc, chainMiddlewares h [] = h) ∧
    (∀ l : LightMux, l.globalMiddlewareStack = [] →
      l.ApplyGlobalMiddlewares.serverHandler = some (muxServe l.muxTable)) := by
  constructor
  · intro h
    rfl
  · intro l hempty
    rw [LightMux.ApplyGlobalMiddlewares]
    simp [hempty]

theorem empty_chain_identity_witness :
    chainMiddlewares helloHandler [] = helloHandler ∧
    NewLightMux.ApplyGlobalMiddlewares.serverHandler = some (muxServe NewLightMux.muxTable) :=
  ⟨empty_chain_identity.1 helloHandler, empty_chain_identity.2 NewLightMux rfl⟩

/-! ## C2: 405 dispatch behaviour -/

/-- C2 (evaluation at the failing input): for the /hello route with only
GET bound, a POST request takes the 405 branch of the installed dispatch:
the status is 405 and the body is exactly the encoded error object, and a
GET request invokes the bound handler instead - but the Content-Type
header is NOT part of the sent response: the code calls Header().Set
after WriteHeader, so the header lands only in the in-memory map, never
on the wire.  The claim's "Content-Type response header set to
application/json" is the code's evident intent and fails. -/
theorem dispatch405_status_body_but_no_content_type :
    (helloDispatch { method := "POST", urlPath := "/hello" } RespState.init).status =
      some 405 ∧
    (helloDispatch { method := "POST", urlPath := "/hello" } RespState.init).body =
      "\x7b\"error\":\"POST method is not allowed, allowed methods for /hello:[GET]\"\x7d\n" ∧
    (helloDispatch { method := "POST", urlPath := "/hello" } RespState.init).sentHeaders =
      some [] ∧
    assocGet
      ((helloDispatch { method := "POST", urlPath := "/hello" } RespState.init).sentHeaders.getD
        []) "Content-Type" = none ∧
    assocGet (helloDispatch { method := "POST", urlPath := "/hello" } RespState.init).headers
      "Content-Type" = some "application/json" ∧
    (helloDispatch { method := "GET", urlPath := "/hello" } RespState.init).body =
      "Hello, world!" ∧
    (helloDispatch { method := "GET", urlPath := "/hello" } RespState.init).status =
      some 200 :=
  ⟨rfl, rfl, rfl, rfl, rfl, rfl, rfl⟩

/-! ## C3: global middleware wraps the finalized route dispatch -/

theorem nested_traceMw_run (labels : List String) (h : HandlerFunc)
    (req : Request) (st : RespState) :
    specNestedCompose (labels.map traceMw) h req st =
      h req { st with trace := st.trace ++ labels } := by
  induction labels generalizing st with
  | nil => simp [specNestedCompose]
  | cons a rest ih =>
    simp only [List.map_cons, specNestedCompose, traceMw]
    rw [ih]
    simp [RespState.push]

theorem specNested_traceMw_cons (a : String) (ms : List Middleware) (h : HandlerFunc)
    (req : Request) (st : RespState) :
    specNestedCompose (traceMw a :: ms) h req st =
      specNestedCompose ms h req (st.push a) := rfl

theorem use_on_new (ms : List Middleware) :
    NewLightMux.Use ms =
      { serverHandler := none, muxTable := [], routeMap := [],
        globalMiddlewareStack := ms } := by
  cases ms with
  | nil => rfl
  | cons m rest => rfl

/-- C3: The run operation finalizes in the fixed order ApplyRoutes then
ApplyGlobalMiddlewares, and as a consequence every global middleware
executes before (outside) any route-specific middleware: in the
end-to-end scenario with global middlewares labelled gs and route
middlewares labelled rs, the recorded execution order of a request is
gs, then rs, then the terminal handler. -/
theorem global_middleware_runs_before_route (gs rs : List String) (p m : String)
    (hm : isValidMethod m = true) :
    (∀ l : LightMux, l.runFinalize = l.ApplyRoutes.ApplyGlobalMiddlewares) ∧
    scenarioTrace gs rs p m = some (gs ++ rs ++ ["H"]) := by
  refine ⟨fun l => rfl, ?_⟩
  cases gs with
  | nil =>
    simp [scenarioTrace, use_on_new, LightMux.NewRoute, assocGet, Route.Handle, hm,
      LightMux.setRoute, LightMux.runFinalize, LightMux.ApplyRoutes, muxHandleFunc,
      LightMux.ApplyGlobalMiddlewares, muxServe, routeDispatch,
      wrapMiddlewares_eq_nested, nested_traceMw_run, traceHandler, RespState.push,
      RespState.init]
  | cons g grest =>
    simp [scenarioTrace, use_on_new, LightMux.NewRoute, assocGet, Route.Handle, hm,
      LightMux.setRoute, LightMux.runFinalize, LightMux.ApplyRoutes, muxHandleFunc,
      LightMux.ApplyGlobalMiddlewares, chainMiddlewares_eq_nested,
      specNested_traceMw_cons, nested_traceMw_run, muxServe, routeDispatch,
      wrapMiddlewares_eq_nested, traceHandler, RespState.push, RespState.init]

theorem global_middleware_runs_before_route_witness :
    scenarioTrace ["A"] ["B"] "/hello" "GET" = some (["A"] ++ ["B"] ++ ["H"]) :=
  (global_middleware_runs_before_route ["A"] ["B"] "/hello" "GET" (by decide)).2

/-! ## C8: copy-on-extend independence of route groups -/

theorem assocGet_assocUpd_ne {α β : Type} [DecidableEq α]
    (l : List (α × β)) (k k2 : α) (v : β) (h : k2 ≠ k) :
    assocGet (assocUpd l k v) k2 = assocGet l k2 := by
  induction l with
  | nil => simp [assocUpd, assocGet, Ne.symm h]
  | cons p rest ih =>
    obtain ⟨k0, v0⟩ := p
    by_cases hk : k0 = k
    · subst hk
      simp [assocUpd, assocGet, Ne.symm h]
    · simp only [assocUpd, if_neg hk, assocGet]
      by_cases h2 : k0 = k2
      · simp [h2]
      · simp [h2, ih]

theorem assocGet_assocUpd_self {α β : Type} [DecidableEq α]
    (l : List (α × β)) (k : α) (v : β) :
    assocGet (assocUpd l k v) k = some v := by
  induction l with
  | nil => simp [assocUpd, assocGet]
  | cons p rest ih =>
    obtain ⟨k0, v0⟩ := p
    by_cases hk : k0 = k
    · simp [assocUpd, hk, assocGet]
    · simp [assocUpd, hk, assocGet, ih]

theorem assocGet_append_singleton_ne {α β : Type} [DecidableEq α]
    (l : List (α × β)) (k0 k : α) (v : β) (h : k0 ≠ k) :
    assocGet (l ++ [(k0, v)]) k = assocGet l k := by
  induction l with
  | nil => simp [assocGet, h]
  | cons p rest ih =>
    obtain ⟨k1, v1⟩ := p
    by_cases hk : k1 = k
    · simp [assocGet, hk]
    · simp [assocGet, hk, ih]

theorem assocGet_eq_none_of_forall_ne {α β : Type} [DecidableEq α]
    (l : List (α × β)) (k : α) (h : ∀ pr ∈ l, pr.1 ≠ k) :
    assocGet l k = none := by
  induction l with
  | nil => rfl
  | cons p rest ih =>
    obtain ⟨k0, v0⟩ := p
    have h0 : k0 ≠ k := h (k0, v0) (List.mem_cons_self _ _)
    simp only [assocGet, if_neg h0]
    exact ih (fun pr hpr => h pr (List.mem_cons_of_mem _ hpr))

theorem readArr_alloc_self (h : SliceHeap) (v : List Middleware) (hw : h.wf) :
    (h.alloc v).1.readArr h.next = v := by
  have hnone : assocGet h.arrays h.next = none :=
    assocGet_eq_none_of_forall_ne _ _ (fun pr hpr => Nat.ne_of_lt (hw pr hpr))
  simp [SliceHeap.alloc, SliceHeap.readArr,
    assocGet_append_of_none _ _ _ hnone, assocGet]

theorem readArr_alloc_old (h : SliceHeap) (v : List Middleware) (id : Nat)
    (hid : id < h.next) : (h.alloc v).1.readArr id = h.readArr id := by
  simp [SliceHeap.alloc, SliceHeap.readArr,
    assocGet_append_singleton_ne _ _ _ _ (Nat.ne_of_gt hid)]

theorem alloc_wf (h : SliceHeap) (v : List Middleware) (hw : h.wf) :
    (h.alloc v).1.wf := by
  intro pr hpr
  simp only [SliceHeap.alloc, List.mem_append, List.mem_singleton] at hpr
  cases hpr with
  | inl hin => exact Nat.lt_succ_of_lt (hw pr hin)
  | inr heq => rw [heq]; exact Nat.lt_succ_self _

theorem readArr_writeArr_self (h : SliceHeap) (id : Nat) (v : List Middleware) :
    (h.writeArr id v).readArr id = v := by
  simp [SliceHeap.writeArr, SliceHeap.readArr, assocGet_assocUpd_self]

theorem readArr_writeArr_ne (h : SliceHeap) (id id2 : Nat) (v : List Middleware)
    (hne : id2 ≠ id) : (h.writeArr id v).readArr id2 = h.readArr id2 := by
  simp [SliceHeap.writeArr, SliceHeap.readArr, assocGet_assocUpd_ne _ _ _ _ hne]

theorem mem_assocUpd {α β : Type} [DecidableEq α] (l : List (α × β)) (k : α) (v : β)
    (pr : α × β) (h : pr ∈ assocUpd l k v) : pr ∈ l ∨ pr = (k, v) := by
  induction l with
  | nil =>
    simp [assocUpd] at h
    right
    exact h
  | cons p rest ih =>
    obtain ⟨k0, v0⟩ := p
    by_cases hk : k0 = k
    · simp only [assocUpd, if_pos hk, List.mem_cons] at h
      cases h with
      | inl he => right; exact he
      | inr hin => left; exact List.mem_cons_of_mem _ hin
    · simp only [assocUpd, if_neg hk, List.mem_cons] at h
      cases h with
      | inl he => left; rw [he]; exact List.mem_cons_self _ _
      | inr hin =>
        cases ih hin with
        | inl h2 => left; exact List.mem_cons_of_mem _ h2
        | inr h2 => right; exact h2

theorem writeArr_wf (h : SliceHeap) (id : Nat) (v : List Middleware) (hw : h.wf)
    (hid : id < h.next) : (h.writeArr id v).wf := by
  intro pr hpr
  cases mem_assocUpd h.arrays id v pr hpr with
  | inl hin => exact hw pr hin
  | inr heq => rw [heq]; exact hid

theorem heapExtends_trans {h1 h2 h3 : SliceHeap} {B : Nat}
    (a : HeapExtends h1 h2 B) (b : HeapExtends h2 h3 B) : HeapExtends h1 h3 B :=
  ⟨b.1, fun id hid => (b.2 id hid).trans (a.2 id hid)⟩

theorem readSlice_extends (h h2 : SliceHeap) (s : GoSlice) (B : Nat)
    (he : HeapExtends h h2 B) (hlt : s.arr < B) : h2.readSlice s = h.readSlice s := by
  unfold SliceHeap.readSlice
  rw [he.2 s.arr hlt]

theorem readSlice_length (h : SliceHeap) (s : GoSlice) (hwfs : h.wfSlice s) :
    (h.readSlice s).length = s.len := by
  obtain ⟨h1, h2, h3⟩ := hwfs
  unfold SliceHeap.readSlice
  rw [List.length_take, List.length_drop]
  omega

theorem goAppend_extends (h : SliceHeap) (s : GoSlice) (xs : List Middleware) (B : Nat)
    (hw : h.wf) (hB : B ≤ h.next) (hsB : B ≤ s.arr) (hlt : s.arr < h.next) :
    HeapExtends h (goAppend h s xs).1 B ∧ (goAppend h s xs).1.wf ∧
    h.next ≤ (goAppend h s xs).1.next ∧ B ≤ (goAppend h s xs).2.arr ∧
    (goAppend h s xs).2.arr < (goAppend h s xs).1.next := by
  by_cases hc : s.len + xs.length ≤ s.cap
  · have hgo : goAppend h s xs =
        (h.writeArr s.arr
          ((h.readArr s.arr).take (s.off + s.len) ++ xs ++
            (h.readArr s.arr).drop (s.off + s.len + xs.length)),
         { s with len := s.len + xs.length }) := by
      simp [goAppend, hc]
    rw [hgo]
    refine ⟨⟨hB, ?_⟩, writeArr_wf h _ _ hw hlt, le_refl _, hsB, hlt⟩
    intro id hid
    exact readArr_writeArr_ne h _ id _ (by omega)
  · have hgo : goAppend h s xs =
        ((h.alloc (h.readSlice s ++ xs)).1,
         { arr := h.next, off := 0, len := s.len + xs.length,
           cap := s.len + xs.length }) := by
      simp [goAppend, hc, SliceHeap.alloc]
    rw [hgo]
    have hnx : (h.alloc (h.readSlice s ++ xs)).1.next = h.next + 1 := rfl
    refine ⟨⟨?_, ?_⟩, alloc_wf h _ hw, ?_, ?_, ?_⟩
    · show B ≤ (h.alloc (h.readSlice s ++ xs)).1.next
      rw [hnx]
      omega
    · intro id hid
      show (h.alloc (h.readSlice s ++ xs)).1.readArr id = h.readArr id
      exact readArr_alloc_old h _ id (by omega)
    · show h.next ≤ (h.alloc (h.readSlice s ++ xs)).1.next
      rw [hnx]
      omega
    · show B ≤ h.next
      omega
    · show h.next < (h.alloc (h.readSlice s ++ xs)).1.next
      rw [hnx]
      omega

theorem goAppend_readSlice (h : SliceHeap) (s : GoSlice) (xs : List Middleware)
    (hw : h.wf) (hwfs : h.wfSlice s) :
    (goAppend h s xs).1.readSlice (goAppend h s xs).2 = h.readSlice s ++ xs := by
  obtain ⟨ha, hlc, hcb⟩ := hwfs
  by_cases hc : s.len + xs.length ≤ s.cap
  · have hgo : goAppend h s xs =
        (h.writeArr s.arr
          ((h.readArr s.arr).take (s.off + s.len) ++ xs ++
            (h.readArr s.arr).drop (s.off + s.len + xs.length)),
         { s with len := s.len + xs.length }) := by
      simp [goAppend, hc]
    rw [hgo]
    unfold SliceHeap.readSlice
    dsimp only
    rw [readArr_writeArr_self]
    rw [List.append_assoc, List.drop_append_eq_append_drop]
    have h1 : (List.take (s.off + s.len) (h.readArr s.arr)).length = s.off + s.len := by
      rw [List.length_take]
      omega
    rw [h1, Nat.sub_eq_zero_of_le (by omega), List.drop_zero, List.drop_take]
    have h3 : s.off + s.len - s.off = s.len := by omega
    rw [h3, List.take_append_eq_append_take]
    have h4 : ((h.readArr s.arr).drop s.off |>.take s.len).length = s.len := by
      rw [List.length_take, List.length_drop]
      omega
    rw [List.take_of_length_le (by rw [h4]; omega), h4]
    have h5 : s.len + xs.length - s.len = xs.length := by omega
    rw [h5, List.take_append_eq_append_take, List.take_length, Nat.sub_self,
      List.take_zero, List.append_nil]
  · have hgo : goAppend h s xs =
        ((h.alloc (h.readSlice s ++ xs)).1,
         { arr := h.next, off := 0, len := s.len + xs.length,
           cap := s.len + xs.length }) := by
      simp [goAppend, hc, SliceHeap.alloc]
    rw [hgo]
    show (((h.alloc (h.readSlice s ++ xs)).1.readArr h.next).drop 0).take
        (s.len + xs.length) = h.readSlice s ++ xs
    rw [readArr_alloc_self h _ hw, List.drop_zero]
    apply List.take_of_length_le
    rw [List.length_append]
    have hlen := readSlice_length h s ⟨ha, hlc, hcb⟩
    omega

theorem continueGroup_spec (h : SliceHeap) (g : HRouteGroup) (path : String)
    (mws : List Middleware) (hw : h.wf) (hs : h.wfSlice g.middlewares) :
    (ContinueGroup h g path mws).2.groupPfx = g.groupPfx ++ path ∧
    (ContinueGroup h g path mws).1.readSlice
        (ContinueGroup h g path mws).2.middlewares =
      h.readSlice g.middlewares ++ mws := by
  have h1w : (h.alloc (h.readSlice g.middlewares)).1.wf := alloc_wf h _ hw
  have hrr : (h.alloc (h.readSlice g.middlewares)).1.readArr h.next =
      h.readSlice g.middlewares := readArr_alloc_self h _ hw
  have hlen : (h.readSlice g.middlewares).length = g.middlewares.len :=
    readSlice_length h _ hs
  have hcw : (h.alloc (h.readSlice g.middlewares)).1.wfSlice
      { arr := h.next, off := 0, len := g.middlewares.len, cap := g.middlewares.len } := by
    refine ⟨Nat.lt_succ_self _, le_refl _, ?_⟩
    show 0 + g.middlewares.len ≤
      ((h.alloc (h.readSlice g.middlewares)).1.readArr h.next).length
    rw [hrr, hlen]
    omega
  have happ := goAppend_readSlice (h.alloc (h.readSlice g.middlewares)).1
      { arr := h.next, off := 0, len := g.middlewares.len, cap := g.middlewares.len }
      mws h1w hcw
  have hcs : (h.alloc (h.readSlice g.middlewares)).1.readSlice
      { arr := h.next, off := 0, len := g.middlewares.len, cap := g.middlewares.len } =
      h.readSlice g.middlewares := by
    show (((h.alloc (h.readSlice g.middlewares)).1.readArr h.next).drop 0).take
        g.middlewares.len = h.readSlice g.middlewares
    rw [hrr, List.drop_zero]
    exact List.take_of_length_le (le_of_eq hlen)
  rw [hcs] at happ
  exact ⟨rfl, happ⟩

theorem continueGroup_extends (h : SliceHeap) (g : HRouteGroup) (path : String)
    (mws : List Middleware) (B : Nat) (hw : h.wf) (hB : B ≤ h.next) :
    HeapExtends h (ContinueGroup h g path mws).1 B ∧
    (ContinueGroup h g path mws).1.wf ∧
    h.next ≤ (ContinueGroup h g path mws).1.next ∧
    B ≤ (ContinueGroup h g path mws).2.middlewares.arr ∧
    (ContinueGroup h g path mws).2.middlewares.arr <
      (ContinueGroup h g path mws).1.next := by
  have h1w : (h.alloc (h.readSlice g.middlewares)).1.wf := alloc_wf h _ hw
  have hnx : (h.alloc (h.readSlice g.middlewares)).1.next = h.next + 1 := rfl
  have hext1 : HeapExtends h (h.alloc (h.readSlice g.middlewares)).1 B :=
    ⟨by rw [hnx]; omega, fun id hid => readArr_alloc_old h _ id (by omega)⟩
  have happ := goAppend_extends (h.alloc (h.readSlice g.middlewares)).1
      { arr := h.next, off := 0, len := g.middlewares.len, cap := g.middlewares.len }
      mws B h1w (by rw [hnx]; omega) (by show B ≤ h.next; omega)
      (by show h.next < (h.alloc (h.readSlice g.middlewares)).1.next
          rw [hnx]
          omega)
  have hm3 : h.next ≤
      (goAppend (h.alloc (h.readSlice g.middlewares)).1
        { arr := h.next, off := 0, len := g.middlewares.len, cap := g.middlewares.len }
        mws).1.next := by
    have h2 := happ.2.2.1
    rw [hnx] at h2
    omega
  exact ⟨heapExtends_trans hext1 happ.1, happ.2.1, hm3, happ.2.2.2.1, happ.2.2.2.2⟩

theorem applyChildOps_extends (ops : List ChildOp) :
    ∀ (h : SliceHeap) (g : HRouteGroup) (B : Nat), h.wf → B ≤ h.next →
      B ≤ g.middlewares.arr → g.middlewares.arr < h.next →
      HeapExtends h (applyChildOps h g ops).1 B ∧ (applyChildOps h g ops).1.wf ∧
      h.next ≤ (applyChildOps h g ops).1.next ∧
      B ≤ (applyChildOps h g ops).2.middlewares.arr ∧
      (applyChildOps h g ops).2.middlewares.arr < (applyChildOps h g ops).1.next := by
  induction ops with
  | nil =>
    intro h g B hw hB hgB hglt
    exact ⟨⟨hB, fun _ _ => rfl⟩, hw, le_refl _, hgB, hglt⟩
  | cons op rest ih =>
    intro h g B hw hB hgB hglt
    cases op with
    | cont p mws =>
      have hc := continueGroup_extends h g p mws B hw hB
      have hrec := ih (ContinueGroup h g p mws).1 (ContinueGroup h g p mws).2 B
        hc.2.1 (hB.trans hc.2.2.1) hc.2.2.2.1 hc.2.2.2.2
      show HeapExtends h (applyChildOps (ContinueGroup h g p mws).1
          (ContinueGroup h g p mws).2 rest).1 B ∧ _
      exact ⟨heapExtends_trans hc.1 hrec.1, hrec.2.1, hc.2.2.1.trans hrec.2.2.1,
        hrec.2.2.2.1, hrec.2.2.2.2⟩
    | newRoute mws =>
      have ha := goAppend_extends h g.middlewares mws B hw hB hgB hglt
      have hrec := ih (goAppend h g.middlewares mws).1 g B ha.2.1
        (hB.trans ha.2.2.1) hgB (hglt.trans_le ha.2.2.1)
      show HeapExtends h (applyChildOps (goAppend h g.middlewares mws).1 g rest).1 B ∧ _
      exact ⟨heapExtends_trans ha.1 hrec.1, hrec.2.1, ha.2.2.1.trans hrec.2.2.1,
        hrec.2.2.2.1, hrec.2.2.2.2⟩

/-- C8: ContinueGroup returns a new Group whose prefix is the receiver's
prefix concatenated with the suffix and whose middleware list is a copy of
the receiver's list with the new middleware appended, while the receiver's
own middleware list is left unchanged; and because the copy lives in a
freshly allocated backing array, any later sequence of extend / new-route
operations along the child chain never changes the parent's observable
middleware list (the parent's prefix is an immutable string field and is
never written). -/
theorem continueGroup_independent (h : SliceHeap) (g : HRouteGroup) (s : String)
    (M : List Middleware) (ops : List ChildOp) (hw : h.wf)
    (hs : h.wfSlice g.middlewares) :
    (ContinueGroup h g s M).2.groupPfx = g.groupPfx ++ s ∧
    (ContinueGroup h g s M).1.readSlice (ContinueGroup h g s M).2.middlewares =
      h.readSlice g.middlewares ++ M ∧
    (ContinueGroup h g s M).1.readSlice g.middlewares = h.readSlice g.middlewares ∧
    (applyChildOps (ContinueGroup h g s M).1 (ContinueGroup h g s M).2 ops).1.readSlice
        g.middlewares = h.readSlice g.middlewares := by
  have hspec := continueGroup_spec h g s M hw hs
  have hext := continueGroup_extends h g s M h.next hw (le_refl _)
  have harr : g.middlewares.arr < h.next := hs.1
  have hops := applyChildOps_extends ops (ContinueGroup h g s M).1
    (ContinueGroup h g s M).2 h.next hext.2.1 hext.2.2.1 hext.2.2.2.1 hext.2.2.2.2
  refine ⟨hspec.1, hspec.2, ?_, ?_⟩
  · exact readSlice_extends h _ g.middlewares h.next hext.1 harr
  · exact readSlice_extends h _ g.middlewares h.next
      (heapExtends_trans hext.1 hops.1) harr

theorem continueGroup_independent_witness :
    (ContinueGroup sampleHeap sampleParent "/v1" [traceMw "B"]).2.groupPfx =
      sampleParent.groupPfx ++ "/v1" ∧
    (ContinueGroup sampleHeap sampleParent "/v1" [traceMw "B"]).1.readSlice
        (ContinueGroup sampleHeap sampleParent "/v1" [traceMw "B"]).2.middlewares =
      sampleHeap.readSlice sampleParent.middlewares ++ [traceMw "B"] ∧
    (ContinueGroup sampleHeap sampleParent "/v1" [traceMw "B"]).1.readSlice
        sampleParent.middlewares = sampleHeap.readSlice sampleParent.middlewares ∧
    (applyChildOps (ContinueGroup sampleHeap sampleParent "/v1" [traceMw "B"]).1
        (ContinueGroup sampleHeap sampleParent "/v1" [traceMw "B"]).2
        sampleOps).1.readSlice sampleParent.middlewares =
      sampleHeap.readSlice sampleParent.middlewares :=
  continueGroup_independent sampleHeap sampleParent "/v1" [traceMw "B"] sampleOps
    (by intro pr hpr; simp [sampleHeap] at hpr; simp [hpr, sampleHeap])
    (by refine ⟨by decide, by decide, ?_⟩; show 0 + 1 ≤ 1; omega)

/-! ## C9: surfacing listener start errors -/

/-- C9 counterexample: in the legacy signal-based Run (lightmux.go), a
listener bind failure makes the serve goroutine call log.Fatalf, which
terminates the process; the run operation never returns the error to its
caller, contradicting the claim as stated over this Run variant. -/
theorem legacy_run_exits_on_listen_error :
    legacyRun (some (GoError.other "listen tcp :8080: bind: address already in use"))
      false none = RunOutcome.processExit false ∧
    legacyRun (some (GoError.other "listen tcp :8080: bind: address already in use"))
      false none ≠
      RunOutcome.returns
        (some (GoError.other "listen tcp :8080: bind: address already in use")) ∧
    legacyRunGoroutine
      (some (GoError.other "listen tcp :8080: bind: address already in use")) =
      GoAction.fatalExit :=
  ⟨rfl, by decide, rfl⟩

/-- C9 amended: in the context-based Run (the current lifecycle file), a
listener error other than a clean close is sent on the error channel by
the goroutine - never swallowed and never a process exit - and, the
cancellation not having fired, the select returns exactly that error as
the run operation's result; the legacy signal-based Run instead terminates
the process from its goroutine. -/
theorem run_surfaces_listen_error (e : GoError) (he : e ≠ GoError.serverClosed) :
    runSelect (some e) false none = RunOutcome.returns (some e) ∧
    runGoroutine (some e) = GoAction.sendErr e ∧
    legacyRunGoroutine (some e) = GoAction.fatalExit := by
  refine ⟨?_, ?_, ?_⟩ <;> simp [runSelect, runGoroutine, legacyRunGoroutine, he]

theorem run_surfaces_listen_error_witness :
    runSelect (some (GoError.other "listen tcp :8080: bind: address already in use"))
      false none =
      RunOutcome.returns
        (some (GoError.other "listen tcp :8080: bind: address already in use")) ∧
    runGoroutine
      (some (GoError.other "listen tcp :8080: bind: address already in use")) =
      GoAction.sendErr (GoError.other "listen tcp :8080: bind: address already in use") ∧
    legacyRunGoroutine
      (some (GoError.other "listen tcp :8080: bind: address already in use")) =
      GoAction.fatalExit :=
  run_surfaces_listen_error
    (GoError.other "listen tcp :8080: bind: address already in use") (by decide)
